import Mathlib

/-!
# Codec.h (IC Imaging Control class library): codec discovery, identity and settings

A shallow embedding of `icimagingcontrol/classlib/include/Codec.h`.

Conventions of the embedding:

* `dstringw` / `std::wstring` and `dstringa` / `std::string` are sequences of code units
  (wide resp. narrow), written as lists of natural numbers;
* `dvector<T>` and `std::vector<T>` are lists;
* a `smart_ptr<tCodecList>` is `Option tCodecList`, the null pointer `0` being `none`;
* a raw COM interface pointer (the pointer held by a `smart_com<TItf>`) is a natural number,
  `0` being the null pointer;
* the member functions that the header only declares (they are exported from the library
  binary) and the conversion helper `wstoas` of `dstring.h` are collected in the record
  `Library`; the inline functions of the header are translated over an arbitrary `Library`;
* members whose bodies are not in the header and that a property depends on are modelled
  from the specification; their external collaborators (instantiation, settings and
  interface-query provider) are arguments of the model.
-/

namespace DShowLib

/-- Wide string (`dstringw`, `std::wstring`): a sequence of wide code units. -/
abbrev dstringw := List Nat

/-- Narrow string (`dstringa`, `std::string`): a sequence of narrow code units. -/
abbrev dstringa := List Nat

/-- Type `dvector<T>`, the exported vector type of `dvector.h`. -/
abbrev dvector (α : Type) := List α

/-- Type `tCodecPtr`, a `smart_ptr<Codec>`: the address of the shared `Codec` object. -/
abbrev tCodecPtr := Nat

/-- Type `tCodecList`, a `std::vector<tCodecPtr>`. -/
abbrev tCodecList := List tCodecPtr

/-- Type `tCodecListPtr`, a `smart_ptr<tCodecList>`: `none` is the null pointer `0`,
`some l` points to a list object with contents `l`. -/
abbrev tCodecListPtr := Option tCodecList

/-- Windows `HRESULT`, a signed 32-bit status code. -/
abbrev HRESULT := Int

/-- The `FAILED(hr)` test of the platform headers: the status code is negative. -/
def FAILED (hr : HRESULT) : Bool := decide (hr < 0)

/-- Status `E_NOINTERFACE` (`0x80004002` read as a signed 32-bit value). -/
def E_NOINTERFACE : HRESULT := -2147467262

/-- An interface identifier (`REFIID`), a 128-bit GUID. -/
abbrev IID := Nat

/-- A raw COM interface pointer; `0` is the null pointer. -/
abbrev Ptr := Nat

/-- Modelled from the spec: `icbase::IDShowFilter`, the live compressor filter behind
`Codec::m_pFilter`, is not declared in `Codec.h`.  Of its state the model keeps what the
settings provider protocol of the specification (sections 4.4 and 6) talks about: the raw
pointer held by the `smart_com` (`0` while the filter has not been created), whether the
instance supports configuration persistence, and its current configuration. -/
structure IDShowFilter where
  /-- the pointer held by the `smart_com`, `0` = not created yet -/
  handle : Ptr
  /-- the capability existence check of the settings provider -/
  supportsSettings : Bool
  /-- the current configuration of the filter (provider-specific state) -/
  configuration : dstringw
deriving DecidableEq

/-- The data members of `class Codec` (lines 176-181 of the header). -/
structure Codec where
  /-- the user friendly readable name -/
  m_ReadableName : dstringw
  /-- holds the information to create a filter (`smart_com<IDShowFactoryObjectInfo>`) -/
  m_pFilterInfo : Ptr
  /-- instance of the compressor filter (`smart_com<IDShowFilter>`) -/
  m_pFilter : IDShowFilter
deriving DecidableEq

/-- What a call of `getInternalInterface_( riid, ppv )` leaves behind. -/
structure QueryOutcome where
  /-- the returned status code -/
  hr : HRESULT
  /-- the content of `*ppv` when the call returns -/
  ppv : Ptr
  /-- the codec object after the call (the member function is not `const`) -/
  self : Codec

/-- The functions `Codec.h` uses without defining them, as they behave in one state of the
provider: the private members `getAvailableCodecs_`, `toString_`, `getSettings_` and
`getInternalInterface_` (declared at lines 157-164, defined in the library binary) and the
wide-to-narrow conversion `wstoas` (`dstring.h`).  Nothing is assumed about them: a `const`
member is a function of the codec object, the static member is the value it returns, and
the one member that is not `const` also yields the codec object it leaves behind. -/
structure Library where
  /-- the static member `getAvailableCodecs_()`: the codecs the discovery provider reports -/
  getAvailableCodecs_ : dvector tCodecPtr
  /-- the member `toString_() const` -/
  toString_ : Codec → dstringw
  /-- the member `getSettings_() const` -/
  getSettings_ : Codec → dstringw
  /-- the member `getInternalInterface_( riid, ppv )`; the third argument is the content of
  `*ppv` when the call is made -/
  getInternalInterface_ : Codec → IID → Ptr → QueryOutcome
  /-- the conversion `wstoas` -/
  wstoas : dstringw → dstringa

/-- The range constructor `std::vector( first, last )` applied to `src.begin(), src.end()`:
the new vector receives the elements of the range one after the other, in iteration order. -/
def vectorFromRange {α : Type} (src : dvector α) : List α :=
  src.foldl (fun v x => v ++ [x]) []

/-- Inline `Codec::getAvailableCodecs()` (lines 37-43):
```
dvector<smart_ptr<Codec> > tmp = getAvailableCodecs_();
if( tmp.empty() )
    return 0;
return tCodecListPtr( new tCodecList( tmp.begin(), tmp.end() ) );
``` -/
def getAvailableCodecs (L : Library) : tCodecListPtr :=
  let tmp := L.getAvailableCodecs_
  if tmp.isEmpty then none
  else some (vectorFromRange tmp)

/-- Assignment `smart_com::operator=`: the `smart_com` gives up the pointer `held` so far
and holds `value` from now on. -/
def smart_com_assign : Ptr → Ptr → Ptr
  | _, value => value

/-- What a call of the inline `getInternalInterface( riid, pItf )` leaves behind. -/
structure InterfaceResult where
  /-- the pointer held by the returned `smart_com<TItf>` -/
  ret : Ptr
  /-- the pointer held by the caller's `pItf` when the call returns -/
  pItf : Ptr
  /-- the codec object after the call -/
  self : Codec

/-- Inline `Codec::getInternalInterface( REFIID riid, smart_com<TItf>& pItf )` (lines 80-86):
```
pItf = 0;
getInternalInterface_( riid, (void**) &pItf.get() );
return pItf;
```
The argument `pItf` is the pointer the caller's `smart_com` holds on entry.  The status code
of `getInternalInterface_` is discarded, and the returned `smart_com` is a copy of `pItf`. -/
def getInternalInterface (L : Library) (this : Codec) (riid : IID) (pItf : Ptr) :
    InterfaceResult :=
  -- pItf = 0;
  let pItf := smart_com_assign pItf 0
  -- getInternalInterface_( riid, (void**) &pItf.get() );
  let q := L.getInternalInterface_ this riid pItf
  let pItf := q.ppv
  -- return pItf;
  ⟨pItf, pItf, q.self⟩

/-- Inline `Codec::getInternalInterface( smart_com<TItf>& pItf )` (lines 56-60):
`return getInternalInterface( __uuidof( TItf ), pItf );`.  The argument `uuidofTItf` is the
identifier the compiler attaches to the interface type `TItf`. -/
def getInternalInterfaceT (L : Library) (uuidofTItf : IID) (this : Codec) (pItf : Ptr) :
    InterfaceResult :=
  getInternalInterface L this uuidofTItf pItf

/-- A client that calls `getInternalInterface( riid, pItf )` once for every element of `ps`
on the same codec object, the element being what its `pItf` holds before that call; the
result lists the pointers the calls return, in call order. -/
def repeatedQueries (L : Library) (riid : IID) : Codec → List Ptr → List Ptr
  | _, [] => []
  | this, p :: ps =>
    let r := getInternalInterface L this riid p
    r.ret :: repeatedQueries L riid r.self ps

/-- Inline `Codec::getName()` (lines 89-92): `return wstoas( toString_() );`. -/
def getName (L : Library) (this : Codec) : dstringa :=
  L.wstoas (L.toString_ this)

/-- Inline `Codec::toString()` (lines 97-100): `return wstoas( toString_() );`. -/
def toString (L : Library) (this : Codec) : dstringa :=
  L.wstoas (L.toString_ this)

/-- Inline `Codec::toStringW()` (lines 101-104): `return toString_();`. -/
def toStringW (L : Library) (this : Codec) : dstringw :=
  L.toString_ this

/-- Inline `Codec::getSettings()` (lines 142-145): `return wstoas( getSettings_() );`. -/
def getSettings (L : Library) (this : Codec) : dstringa :=
  L.wstoas (L.getSettings_ this)

/-- Inline `Codec::getSettingsW()` (lines 146-149): `return getSettings_();`. -/
def getSettingsW (L : Library) (this : Codec) : dstringw :=
  L.getSettings_ this

/-- Modelled from the spec: `Codec::operator==( const Codec& )` is only declared in `Codec.h`
(line 110).  Section 4.3: equality is exact string equality of the display name against the
other codec's display name, and considers nothing else. -/
def operator_eq (this op : Codec) : Bool :=
  this.m_ReadableName == op.m_ReadableName

/-- Modelled from the spec: `Codec::operator==( const dstringw& )` is only declared in
`Codec.h` (line 123).  Section 4.3: exact string equality of the display name against the
literal string. -/
def operator_eq_w (this : Codec) (op : dstringw) : Bool :=
  this.m_ReadableName == op

/-- Modelled from the spec: `Codec::operator==( const dstringa& )` is only declared in
`Codec.h` (line 122).  Section 4.3 gives the narrow form the same meaning as the wide one:
the literal string, brought to the encoding of the stored name by `astows` (`dstring.h`), is
compared with the display name. -/
def operator_eq_a (astows : dstringa → dstringw) (this : Codec) (op : dstringa) : Bool :=
  operator_eq_w this (astows op)

/-- Modelled from the spec: `Codec::operator!=( const Codec& )` is only declared in `Codec.h`
(line 116); the specification has no separate rule for it.  The contract documented at the
declaration is followed: "return false if this and op are equal, else true", equality being
that of section 4.3. -/
def operator_ne (this op : Codec) : Bool :=
  if operator_eq this op then false else true

/-- Modelled from the spec: the errors of section 7 that the settings operations can end
in; the header has no type for them. -/
inductive CodecError where
  | InstantiationFailed
  | SettingsUnavailable
deriving DecidableEq

/-- Modelled from the spec: the external collaborators of section 6 that the settings
operations consume; none of them is declared in `Codec.h`. -/
structure Provider where
  /-- instantiation provider: given a factory descriptor, produces a live filter or fails -/
  instantiate : Ptr → Option IDShowFilter
  /-- settings provider: the live filter turns down the request to read its settings -/
  unavailable : IDShowFilter → Bool
  /-- settings provider: the live filter turns down a configuration for reasons of its own,
  although the blob is well formed and was produced for this codec -/
  refuses : IDShowFilter → dstringw → Bool

/-- Modelled from the spec: `Codec::getFilter()` is only declared in `Codec.h` (line 174).
Section 4.2: the first operation that needs a live provider instance creates it from the
factory descriptor, later operations reuse the cached instance, and a failed creation ends
the operation with `InstantiationFailed`.  The result is the live filter and the codec
object that caches it. -/
def getFilter (P : Provider) (this : Codec) : Except CodecError (IDShowFilter × Codec) :=
  if this.m_pFilter.handle ≠ 0 then .ok (this.m_pFilter, this)
  else
    match P.instantiate this.m_pFilterInfo with
    | none => .error .InstantiationFailed
    | some f =>
      if f.handle ≠ 0 then .ok (f, ⟨this.m_ReadableName, this.m_pFilterInfo, f⟩)
      else .error .InstantiationFailed

/-- Modelled from the spec: the settings blob of section 3, provider-specific state that
this layer passes on untouched.  The provider has to tell a blob of its own format from
any other text and to tell which codec identity produced it (section 4.4 names both as
causes of rejection); the model fixes one format that allows this: the length of the
display name, the display name, then the configuration. -/
def settingsBlob (name configuration : dstringw) : dstringw :=
  name.length :: (name ++ configuration)

/-- Modelled from the spec: `Codec::hasSettings()` is only declared in `Codec.h` (line 137).
Section 4.4: forces instantiation, fails with `InstantiationFailed` if that fails, and
otherwise reports whether the provider instance supports configuration persistence. -/
def hasSettings (P : Provider) (this : Codec) : Except CodecError (Bool × Codec) :=
  match getFilter P this with
  | .error e => .error e
  | .ok (f, live) => .ok (f.supportsSettings, live)

/-- Modelled from the spec: `Codec::getSettings_()` is only declared in `Codec.h`
(line 162).  Section 4.4: retrieves the current configuration as a blob; an empty blob
when the codec has no persistable state; `SettingsUnavailable` if the provider rejects the
request; section 4.2 for the live instance.  The result is the blob and the codec object
after the call. -/
def getSettings_ (P : Provider) (this : Codec) : Except CodecError (dstringw × Codec) :=
  match getFilter P this with
  | .error e => .error e
  | .ok (f, live) =>
    if f.supportsSettings then
      if P.unavailable f then .error .SettingsUnavailable
      else .ok (settingsBlob live.m_ReadableName f.configuration, live)
    else .ok ([], live)

/-- Modelled from the spec: what the generic interface-query provider of section 6 answers:
a bound sub-interface, with a status that is not negative, or failure, with a negative
status (`Int.negSucc code`).  On failure nothing is bound (section 4.5: no partial binding):
the query either stores a null pointer through `ppv` (`clears`) or leaves `*ppv` alone. -/
inductive QueryAnswer where
  | bound (status : Nat) (itf : Ptr)
  | failure (code : Nat) (clears : Bool)

/-- Modelled from the spec: `Codec::getInternalInterface_( riid, ppv )` is only declared in
`Codec.h` (line 164).  It hands the request to the interface-query provider, which may
create the live instance on the way (section 4.2; a failed creation is one of the
failures), and reports the answer as status code and through `ppv`. -/
def getInternalInterface_ (provider : Codec → IID → QueryAnswer × Codec) (this : Codec)
    (riid : IID) (ppv : Ptr) : QueryOutcome :=
  match provider this riid with
  | (.bound status itf, after) => ⟨Int.ofNat status, itf, after⟩
  | (.failure code clears, after) => ⟨Int.negSucc code, if clears then 0 else ppv, after⟩

/-- The library `L` with `getInternalInterface_` answering from the given provider. -/
def queryLibrary (L : Library) (provider : Codec → IID → QueryAnswer × Codec) : Library where
  getAvailableCodecs_ := L.getAvailableCodecs_
  toString_ := L.toString_
  getSettings_ := L.getSettings_
  getInternalInterface_ := getInternalInterface_ provider
  wstoas := L.wstoas

/-- The library in which `toString_` and `getSettings_` behave as the specification
describes them (the display name resp. the current configuration); the discovery provider
reports `codecs`, no interface is supported, and `wstoas` is the given conversion. -/
def specLibrary (codecs : dvector tCodecPtr) (wstoas : dstringw → dstringa) : Library where
  getAvailableCodecs_ := codecs
  toString_ := fun c => c.m_ReadableName
  getSettings_ := fun c => c.m_pFilter.configuration
  getInternalInterface_ := fun c _ p => ⟨E_NOINTERFACE, p, c⟩
  wstoas := wstoas

/-! ## Example values -/

/-- A codec named "X264" (code units 88 50 54 52) whose filter holds the configuration
`[1, 2, 3]`. -/
def x264 : Codec := ⟨[88, 50, 54, 52], 1, ⟨0, true, [1, 2, 3]⟩⟩

/-- An interface-query provider that supports the interface `5` only. -/
def demoQuery (c : Codec) (riid : IID) : QueryAnswer × Codec :=
  if riid = 5 then (.bound 0 77, c) else (.failure 2147467261 false, c)

/-! ## Lemmas -/

theorem foldl_snoc_eq {α : Type} (acc src : List α) :
    src.foldl (fun v x => v ++ [x]) acc = acc ++ src := by
  induction src generalizing acc with
  | nil => simp
  | cons x xs ih => simp [ih]

theorem vectorFromRange_eq {α : Type} (src : dvector α) : vectorFromRange src = src := by
  simp [vectorFromRange, foldl_snoc_eq]

theorem getInternalInterface_ret (L : Library) (c : Codec) (riid : IID) (p : Ptr) :
    (getInternalInterface L c riid p).ret = (L.getInternalInterface_ c riid 0).ppv := rfl

theorem repeatedQueries_length (L : Library) (riid : IID) (c : Codec) (ps : List Ptr) :
    (repeatedQueries L riid c ps).length = ps.length := by
  induction ps generalizing c with
  | nil => rfl
  | cons p ps ih => simp [repeatedQueries, ih]

theorem repeatedQueries_null (L : Library) (riid : IID)
    (hw : ∀ (c : Codec) (p : Ptr), (L.getInternalInterface_ c riid p).ppv = p)
    (c : Codec) (ps : List Ptr) :
    ∀ r ∈ repeatedQueries L riid c ps, r = 0 := by
  induction ps generalizing c with
  | nil => intro r hr; simp [repeatedQueries] at hr
  | cons p ps ih =>
    intro r hr
    simp only [repeatedQueries, List.mem_cons] at hr
    rcases hr with h | h
    · rw [h, getInternalInterface_ret, hw]
    · exact ih _ r h

/-- C1, as stated, fails: in a provider state with zero codecs `getAvailableCodecs` does not
return a list of length 0; what it returns is the null pointer. -/
theorem getAvailableCodecs_empty_not_a_list :
    (specLibrary [] id).getAvailableCodecs_ = [] ∧
      ¬ ∃ l : tCodecList, getAvailableCodecs (specLibrary [] id) = some l ∧ l.length = 0 := by
  refine ⟨rfl, ?_⟩
  rintro ⟨l, hl, _⟩
  simp [getAvailableCodecs, specLibrary] at hl

/-- C1, amended: for every provider state in which the discovery provider returns zero
codecs, `getAvailableCodecs` returns the null list pointer `0`; no list object is created. -/
theorem getAvailableCodecs_null_of_none_found (L : Library)
    (h : L.getAvailableCodecs_ = []) : getAvailableCodecs L = none := by
  simp [getAvailableCodecs, h]

theorem getAvailableCodecs_null_of_none_found_witness :
    (specLibrary [] id).getAvailableCodecs_ = [] ∧
      getAvailableCodecs (specLibrary [] id) = none :=
  ⟨rfl, getAvailableCodecs_null_of_none_found (specLibrary [] id) rfl⟩

/-- C2: for every non-empty sequence of codecs returned by the discovery provider, the list
returned by `getAvailableCodecs` exists, has the same length and holds the same codec
reference at every position, so that nothing is dropped, duplicated or reordered. -/
theorem getAvailableCodecs_same_sequence (L : Library) (h : L.getAvailableCodecs_ ≠ []) :
    ∃ l : tCodecList, getAvailableCodecs L = some l ∧
      l.length = L.getAvailableCodecs_.length ∧
      (∀ i : Nat, l[i]? = L.getAvailableCodecs_[i]?) ∧
      l = L.getAvailableCodecs_ := by
  refine ⟨L.getAvailableCodecs_, ?_, rfl, fun _ => rfl, rfl⟩
  simp [getAvailableCodecs, h, vectorFromRange_eq]

theorem getAvailableCodecs_same_sequence_witness :
    ∃ l : tCodecList, getAvailableCodecs (specLibrary [40, 10, 40, 30] id) = some l ∧
      l.length = (specLibrary [40, 10, 40, 30] id).getAvailableCodecs_.length ∧
      (∀ i : Nat, l[i]? = (specLibrary [40, 10, 40, 30] id).getAvailableCodecs_[i]?) ∧
      l = (specLibrary [40, 10, 40, 30] id).getAvailableCodecs_ :=
  getAvailableCodecs_same_sequence (specLibrary [40, 10, 40, 30] id) (by decide)

/-! ## Identity -/

/-- C3: for all codecs `a` and `b`, `a == b` holds exactly when their readable names are
equal strings, and `a == s` holds exactly when the readable name of `a` equals the string
`s` (for a narrow `s`: its wide form); codec equality is reflexive and symmetric and does
not depend on the fields `m_pFilterInfo` and `m_pFilter`. -/
theorem operator_eq_iff_readable_name (astows : dstringa → dstringw) (a b : Codec)
    (s : dstringw) (t : dstringa) :
    (operator_eq a b = true ↔ a.m_ReadableName = b.m_ReadableName) ∧
      (operator_eq_w a s = true ↔ a.m_ReadableName = s) ∧
      (operator_eq_a astows a t = true ↔ a.m_ReadableName = astows t) ∧
      operator_eq a a = true ∧
      operator_eq a b = operator_eq b a ∧
      (∀ (i j : Ptr) (f g : IDShowFilter),
        operator_eq ⟨a.m_ReadableName, i, f⟩ ⟨b.m_ReadableName, j, g⟩ = operator_eq a b) ∧
      (∀ (i : Ptr) (f : IDShowFilter),
        operator_eq_w ⟨a.m_ReadableName, i, f⟩ s = operator_eq_w a s) := by
  refine ⟨?_, ?_, ?_, ?_, ?_, ?_, ?_⟩
  · simp [operator_eq]
  · simp [operator_eq_w]
  · simp [operator_eq_a, operator_eq_w]
  · simp [operator_eq]
  · simp only [operator_eq]
    exact Bool.eq_iff_iff.2 ⟨fun h => by simpa using (eq_of_beq h).symm,
      fun h => by simpa using (eq_of_beq h).symm⟩
  · intro i j f g; rfl
  · intro i f; rfl

/-- C9: for all codecs `a` and `b`, `a != b` is the logical negation of `a == b`: it is
false exactly when the two codecs are equal, and true otherwise. -/
theorem operator_ne_eq_not_operator_eq (a b : Codec) :
    operator_ne a b = !operator_eq a b ∧
      (operator_ne a b = false ↔ operator_eq a b = true) ∧
      (operator_ne a b = true ↔ operator_eq a b = false) ∧
      (operator_ne a b = true ↔ a.m_ReadableName ≠ b.m_ReadableName) := by
  have hname : operator_eq a b = true ↔ a.m_ReadableName = b.m_ReadableName := by
    simp [operator_eq]
  unfold operator_ne
  cases h : operator_eq a b
  · have hne : a.m_ReadableName ≠ b.m_ReadableName := fun e => by
      rw [hname.2 e] at h
      exact Bool.noConfusion h
    exact ⟨rfl, by decide, by decide, by simpa using hne⟩
  · have he : a.m_ReadableName = b.m_ReadableName := hname.1 h
    exact ⟨rfl, by decide, by decide, by simpa using he⟩

/-- C4: for every codec, `getName()` and `toString()` return the same narrow string, that
string is the `wstoas` transcoding of what `toStringW()` returns, and all three hand on the
name delivered by `toString_` without formatting of their own. -/
theorem getName_toString_toStringW (L : Library) (c : Codec) :
    getName L c = toString L c ∧
      toString L c = L.wstoas (toStringW L c) ∧
      getName L c = L.wstoas (toStringW L c) ∧
      toStringW L c = L.toString_ c ∧
      getName L c = L.wstoas (L.toString_ c) ∧
      toString L c = L.wstoas (L.toString_ c) :=
  ⟨rfl, rfl, rfl, rfl, rfl, rfl⟩

/-! ## Settings -/

/-- C5: for every codec and provider state, the narrow settings text returned by
`getSettings()` is the `wstoas` transcoding of the wide settings text returned by
`getSettingsW()` in the same state, and both come from the one value `getSettings_`
delivers. -/
theorem getSettings_eq_wstoas_getSettingsW (L : Library) (c : Codec) :
    getSettings L c = L.wstoas (getSettingsW L c) ∧
      getSettingsW L c = L.getSettings_ c ∧
      getSettings L c = L.wstoas (L.getSettings_ c) :=
  ⟨rfl, rfl, rfl⟩

theorem getInternalInterface_null_of_nothing_written (L : Library) (c : Codec) (riid : IID)
    (p : Ptr) (h : (L.getInternalInterface_ c riid 0).ppv = 0) :
    (getInternalInterface L c riid p).ret = 0 ∧ (getInternalInterface L c riid p).pItf = 0 :=
  ⟨h, h⟩

/-- C6: for every codec and every interface identifier `riid`, if the underlying interface
query `getInternalInterface_` reports that the interface is not supported (its status code
is a failure), then `getInternalInterface( riid, pItf )` returns 0 and leaves the caller's
`pItf` equal to 0, whatever `pItf` held before the call. -/
theorem getInternalInterface_null_of_failure (L : Library)
    (provider : Codec → IID → QueryAnswer × Codec) (c : Codec) (riid : IID) (p : Ptr)
    (h : FAILED ((queryLibrary L provider).getInternalInterface_ c riid 0).hr = true) :
    (getInternalInterface (queryLibrary L provider) c riid p).ret = 0 ∧
      (getInternalInterface (queryLibrary L provider) c riid p).pItf = 0 := by
  apply getInternalInterface_null_of_nothing_written
  simp only [queryLibrary, getInternalInterface_] at h ⊢
  cases hq : provider c riid with
  | mk answer after =>
    rw [hq] at h
    cases answer with
    | bound status itf =>
      have hpos : ¬ ((Int.ofNat status) < 0) := not_lt.2 (Int.ofNat_nonneg status)
      have hfalse : FAILED (Int.ofNat status) = false := by
        unfold FAILED
        exact decide_eq_false hpos
      rw [hfalse] at h
      exact Bool.noConfusion h
    | failure code clears => cases clears <;> rfl

theorem getInternalInterface_null_of_failure_witness :
    FAILED ((queryLibrary (specLibrary [] id) demoQuery).getInternalInterface_ x264 6 0).hr
        = true ∧
      (getInternalInterface (queryLibrary (specLibrary [] id) demoQuery) x264 6 99).ret = 0 ∧
      (getInternalInterface (queryLibrary (specLibrary [] id) demoQuery) x264 6 99).pItf = 0 :=
  ⟨by decide,
    getInternalInterface_null_of_failure (specLibrary [] id) demoQuery x264 6 99 (by decide)⟩

/-- C10: for every codec, identifier `riid` and any two initial contents of the caller's
`pItf`, `getInternalInterface( riid, pItf )` gives the same outcome, namely what the
underlying query writes when handed a null pointer; the returned handle equals the final
value of `pItf`; the overload that takes the identifier from the interface type does the
same; and when the provider writes nothing for `riid`, every one of any number of repeated
calls returns 0. -/
theorem getInternalInterface_reset (L : Library) (c : Codec) (riid : IID) :
    (∀ p q : Ptr, getInternalInterface L c riid p = getInternalInterface L c riid q) ∧
      (∀ p : Ptr,
        (getInternalInterface L c riid p).ret = (L.getInternalInterface_ c riid 0).ppv) ∧
      (∀ p : Ptr, (getInternalInterface L c riid p).ret = (getInternalInterface L c riid p).pItf) ∧
      (∀ p : Ptr, getInternalInterfaceT L riid c p = getInternalInterface L c riid p) ∧
      ((∀ (d : Codec) (p : Ptr), (L.getInternalInterface_ d riid p).ppv = p) →
        ∀ ps : List Ptr,
          (repeatedQueries L riid c ps).length = ps.length ∧
          ∀ r ∈ repeatedQueries L riid c ps, r = 0) :=
  ⟨fun _ _ => rfl, fun _ => rfl, fun _ => rfl, fun _ => rfl,
    fun hw ps => ⟨repeatedQueries_length L riid c ps, repeatedQueries_null L riid hw c ps⟩⟩

theorem getInternalInterface_reset_witness :
    (∀ (d : Codec) (p : Ptr), ((specLibrary [] id).getInternalInterface_ d 5 p).ppv = p) ∧
      (∀ r ∈ repeatedQueries (specLibrary [] id) 5 x264 [99, 0, 7], r = 0) ∧
      getInternalInterface (specLibrary [] id) x264 5 99
        = getInternalInterface (specLibrary [] id) x264 5 7 :=
  ⟨fun _ _ => rfl,
    ((getInternalInterface_reset (specLibrary [] id) x264 5).2.2.2.2
      (fun _ _ => rfl) [99, 0, 7]).2,
    (getInternalInterface_reset (specLibrary [] id) x264 5).1 99 7⟩

end DShowLib
